import Mathlib

/-!
Shallow embedding of the MXNet pre-trained-models notebook
(`src/mxnet/intro/Pre-trained models.ipynb`).

The notebook defines four operations: `loadModel`, `loadCategories`,
`prepareNDArray` and `predict`.  Python strings are modelled as `List Char`,
images as nested lists, NDArrays as a shape together with flat data, and the
framework calls (`load_checkpoint`, the bound network, `cv2` decoding) as
explicit parameters, since their internals live outside this repository.
-/

namespace AwsNotebook

/-- Whitespace characters stripped by Python's `str.rstrip()` (ASCII range):
space, tab, newline, carriage return, vertical tab, form feed. -/
def isPySpace (c : Char) : Bool :=
  c.toNat = 32 || c.toNat = 9 || c.toNat = 10 || c.toNat = 13 ||
  c.toNat = 11 || c.toNat = 12

/-- Python's `str.rstrip()`: remove all trailing whitespace characters. -/
def rstrip (l : List Char) : List Char :=
  (l.reverse.dropWhile isPySpace).reverse

/-- Iterating over a Python file object yields its lines: the contents are
split after every newline character, each line keeping its terminating
newline; a final segment without a newline is yielded as well, and an empty
file yields nothing. -/
def pythonLines : List Char → List (List Char)
  | [] => []
  | c :: cs =>
    if c = '\n' then
      [c] :: pythonLines cs
    else
      match pythonLines cs with
      | [] => [[c]]
      | l :: ls => (c :: l) :: ls

/-- `loadCategories` from the notebook: iterate over the lines of
`synset.txt` and append `l.rstrip()` for each line `l`, in order.  The file
contents are passed explicitly. -/
def loadCategories (contents : List Char) : List (List Char) :=
  (pythonLines contents).map rstrip

/-- Modelled from the spec: the `synset.txt` label file is downloaded at
runtime and is not part of the repository; the spec fixes it as a list of
category label strings stored one per line.  This builds such a file's
contents from the list of labels. -/
def mkSynsetFile (labels : List (List Char)) : List Char :=
  (labels.map (fun l => l ++ ['\n'])).flatten

/-- An OpenCV image: rows of pixels, each pixel a list of channel values
(BGR order as decoded by `cv2.imread`). -/
abbrev Image := List (List (List Nat))

/-- Number of rows of an image (numpy axis 0). -/
def dim0 (a : Image) : Nat := a.length

/-- Number of columns of an image (numpy axis 1), read off the first row. -/
def dim1 (a : Image) : Nat := (a.getD 0 []).length

/-- Number of channels of an image (numpy axis 2), read off the first pixel. -/
def dim2 (a : Image) : Nat := ((a.getD 0 []).getD 0 []).length

/-- Indexing `a[i][j][k]`, with 0 as the out-of-range default. -/
def idx3 (a : Image) (i j k : Nat) : Nat :=
  ((a.getD i []).getD j []).getD k 0

/-- `cv2.cvtColor(img, cv2.COLOR_BGR2RGB)`: swap channels 0 and 2 of every
pixel; on the 3-channel pixels produced by decoding this reverses the
channel list. -/
def cvtColorBGR2RGB (img : Image) : Image :=
  img.map (fun row => row.map (fun px => px.reverse))

/-- `cv2.resize(img, (w, h))`: an image of `h` rows and `w` columns whose
pixels are sampled from the source.  The exact interpolation of pixel values
is internal to OpenCV; the sampling used here reads a source pixel at the
proportionally scaled coordinates, which fixes the output geometry exactly
as the library does. -/
def resize (img : Image) (w h : Nat) : Image :=
  (List.range h).map (fun y => (List.range w).map (fun x =>
    (img.getD (y * img.length / h) []).getD
      (x * (img.getD 0 []).length / w) []))

/-- `np.swapaxes(a, 0, 2)`: the element at `[i][j][k]` of the result is
`a[k][j][i]`. -/
def swapaxes02 (a : Image) : Image :=
  (List.range (dim2 a)).map (fun i => (List.range (dim1 a)).map (fun j =>
    (List.range (dim0 a)).map (fun k => idx3 a k j i)))

/-- `np.swapaxes(a, 1, 2)`: the element at `[i][j][k]` of the result is
`a[i][k][j]`. -/
def swapaxes12 (a : Image) : Image :=
  (List.range (dim0 a)).map (fun i => (List.range (dim2 a)).map (fun j =>
    (List.range (dim1 a)).map (fun k => idx3 a i k j)))

/-- An MXNet NDArray: a shape together with flat data. -/
structure NDArray where
  shape : List Nat
  data : List Rat
deriving DecidableEq

/-- `mx.nd.array` applied to a 4-dimensional nested array (the image after
`img[np.newaxis, :]`): the shape records the four dimensions and the data is
the flattened contents. -/
def ndarrayOfT4 (t : List Image) : NDArray :=
  { shape := [t.length, dim0 (t.getD 0 []), dim1 (t.getD 0 []),
      dim2 (t.getD 0 [])],
    data := ((t.map (fun a => (a.map List.flatten).flatten)).flatten).map
      (fun v => (v : Rat)) }

/-- The 4-dimensional nested array built inside `prepareNDArray`:
convert BGR to RGB, resize to 224 x 224, swap axes 0,2 then 1,2, and add a
leading axis (`img[np.newaxis, :]`). -/
def prepareT4 (img : Image) : List Image :=
  [swapaxes12 (swapaxes02 (resize (cvtColorBGR2RGB img) 224 224))]

/-- Indexing `t[b][i][j][k]` of a 4-dimensional nested array. -/
def idx4 (t : List Image) (b i j k : Nat) : Nat :=
  idx3 (t.getD b []) i j k

/-- `prepareNDArray` from the notebook, applied to an already decoded image:
`cvtColor`, `resize`, two `swapaxes`, `np.newaxis`, `mx.nd.array`. -/
def prepareNDArray (img : Image) : NDArray :=
  ndarrayOfT4 (prepareT4 img)

/-- The symbol file: a JSON network description, loaded and treated
opaquely. -/
abbrev Sym := String

/-- A parameter dictionary as returned by `mx.model.load_checkpoint`:
parameter name to NDArray, in insertion order. -/
abbrev Dict := List (String × NDArray)

/-- Python dictionary assignment `d[k] = v`: overwrite the binding in place
when the key is present, append a new binding otherwise. -/
def dictInsert (d : Dict) (k : String) (v : NDArray) : Dict :=
  if d.any (fun p => p.1 = k) then
    d.map (fun p => if p.1 = k then (k, v) else p)
  else
    d ++ [(k, v)]

/-- Python dictionary lookup `d[k]` (as an option). -/
def dictLookup (d : Dict) (k : String) : Option NDArray :=
  match d with
  | [] => none
  | (k', v) :: rest => if k' = k then some v else dictLookup rest k

/-- An MXNet compute context: `mx.cpu()` (the default) or `mx.gpu(i)`. -/
inductive Context where
  | cpu : Context
  | gpu (deviceId : Nat) : Context
deriving DecidableEq

/-- `mx.nd.array([x])`: a one-element NDArray of shape `(1,)`. -/
def ndarrayOf1 (x : Rat) : NDArray :=
  { shape := [1], data := [x] }

/-- An MXNet `Module`: the symbol and context given at construction, the
binding configuration, the parameters, the network function the framework
derives from symbol and parameters, and the outputs of the last forward
pass. -/
structure Module where
  symbol : Sym
  context : Context
  forTraining : Bool
  dataShapes : List (String × (Nat × Nat × Nat × Nat))
  argParams : Dict
  auxParams : Dict
  net : List NDArray → List NDArray
  lastOutputs : List NDArray

/-- `mx.mod.Module(symbol=sym, context=ctx)`: a fresh, unbound module. -/
def mxModule (sym : Sym) (ctx : Context) : Module :=
  { symbol := sym, context := ctx, forTraining := true, dataShapes := [],
    argParams := [], auxParams := [], net := fun _ => [], lastOutputs := [] }

/-- `mod.bind(for_training=..., data_shapes=...)`. -/
def Module.bindShapes (m : Module) (forTraining : Bool)
    (dataShapes : List (String × (Nat × Nat × Nat × Nat))) : Module :=
  { m with forTraining := forTraining, dataShapes := dataShapes }

/-- `mod.set_params(arg_params, aux_params)`: store the parameters; the
executable network realised by the framework from the symbol and the
parameters is abstracted as the function `exec`. -/
def Module.setParams (m : Module)
    (exec : Sym → Dict → Dict → List NDArray → List NDArray)
    (args auxs : Dict) : Module :=
  { m with
    argParams := args
    auxParams := auxs
    net := exec m.symbol args auxs }

/-- The body of `loadModel` applied to the checkpoint contents
`(sym, arg_params, aux_params)`: set `arg_params['prob_label']` and
`arg_params['softmax_label']` to one-element zero arrays, build the module
with a GPU context when the flag is set and the default context otherwise,
bind it with `for_training=False` and data shape `(1,3,224,224)`, and set
the parameters. -/
def loadModelCore (ckpt : Sym × Dict × Dict)
    (exec : Sym → Dict → Dict → List NDArray → List NDArray)
    (gpu : Bool) : Module :=
  let sym := ckpt.1
  let argParams0 := ckpt.2.1
  let auxParams := ckpt.2.2
  let argParams1 := dictInsert argParams0 "prob_label" (ndarrayOf1 0)
  let argParams2 := dictInsert argParams1 "softmax_label" (ndarrayOf1 0)
  let m :=
    if gpu then mxModule sym (Context.gpu 0) else mxModule sym Context.cpu
  let m := m.bindShapes false [("data", (1, 3, 224, 224))]
  m.setParams exec argParams2 auxParams

/-- `loadModel(modelname, gpu)` from the notebook, with
`mx.model.load_checkpoint` abstracted as the function `loadCheckpoint` from
model names to checkpoint contents. -/
def loadModel (loadCheckpoint : String → Sym × Dict × Dict)
    (exec : Sym → Dict → Dict → List NDArray → List NDArray)
    (modelname : String) (gpu : Bool) : Module :=
  loadModelCore (loadCheckpoint modelname) exec gpu

/-- The `Batch` namedtuple of the notebook: a list of input NDArrays. -/
structure Batch where
  data : List NDArray

/-- Observable framework calls made during `predict`. -/
inductive Event where
  | forward (b : Batch) : Event
  | getOutputs : Event

/-- Whether an event is a forward pass. -/
def Event.isForward : Event → Bool
  | .forward _ => true
  | .getOutputs => false

/-- `model.forward(batch)`: run the network on the batch data, store the
outputs, and record one forward event. -/
def Module.forwardCall (m : Module) (b : Batch) : Module × List Event :=
  ({ m with lastOutputs := m.net b.data }, [Event.forward b])

/-- `model.get_outputs()`: read the stored outputs, recording the call. -/
def Module.getOutputsCall (m : Module) : List NDArray × List Event :=
  (m.lastOutputs, [Event.getOutputs])

/-- `np.squeeze`: drop every axis of extent 1; the data is unchanged. -/
def squeeze (a : NDArray) : NDArray :=
  { shape := a.shape.filter (fun d => d ≠ 1), data := a.data }

/-- The comparison `np.argsort` sorts by: index `i` precedes index `j` when
the value at `i` is at most the value at `j`. -/
def probLe (prob : List Rat) (i j : Nat) : Prop :=
  prob.getD i 0 ≤ prob.getD j 0

instance (prob : List Rat) : DecidableRel (probLe prob) :=
  fun i j => inferInstanceAs (Decidable (prob.getD i 0 ≤ prob.getD j 0))

instance (prob : List Rat) : IsTotal Nat (probLe prob) :=
  ⟨fun i j => le_total (prob.getD i 0) (prob.getD j 0)⟩

instance (prob : List Rat) : IsTrans Nat (probLe prob) :=
  ⟨fun _ _ _ h h' => le_trans h h'⟩

/-- `np.argsort(prob)`: the indices `0, ..., len(prob)-1` sorted so that the
values at them are ascending.  The library's sorting algorithm is internal;
any sort meeting its contract (a permutation of the indices with ascending
values) is observationally the same here. -/
def argsort (prob : List Rat) : List Nat :=
  List.insertionSort (probLe prob) (List.range prob.length)

/-- `np.argsort(prob)[::-1]`: indices sorted by descending value. -/
def argsortDesc (prob : List Rat) : List Nat :=
  (argsort prob).reverse

/-- Python sequence indexing `l[i]` for a non-negative index: `some` value
in range, an `IndexError` (here `none`) otherwise. -/
def pyIndex {α : Type} (l : List α) (i : Nat) : Option α :=
  l.get? i

/-- The accumulation loop at the end of `predict`: for each index `i` in the
sliced index list, append the pair `(prob[i], categories[i])`. -/
def topnLoop (prob : List Rat) (cats : List (List Char)) :
    List Nat → Option (List (Rat × List Char))
  | [] => some []
  | i :: rest => do
    let p ← pyIndex prob i
    let c ← pyIndex cats i
    let tail ← topnLoop prob cats rest
    pure ((p, c) :: tail)

/-- The top-n selection of `predict`: slice the descending index list to its
first `n` entries (Python slicing clamps at the length) and pair each index
with its probability and category label. -/
def predictTopN (prob : List Rat) (cats : List (List Char)) (n : Nat) :
    Option (List (Rat × List Char)) :=
  topnLoop prob cats ((argsortDesc prob).take n)

/-- `predict` from the notebook, applied to an already prepared input array:
build the batch, run `model.forward`, read `model.get_outputs()[0]`, squeeze
it, and select the top `n` categories.  Returns the selection, the squeezed
probability vector, and the trace of framework calls. -/
def predictRun (m : Module) (array : NDArray) (cats : List (List Char))
    (n : Nat) :
    Option (List (Rat × List Char)) × List Rat × List Event :=
  let batch : Batch := ⟨[array]⟩
  let fwd := m.forwardCall batch
  let outs := fwd.1.getOutputsCall
  let prob := (squeeze (outs.1.getD 0 ⟨[], []⟩)).data
  (predictTopN prob cats n, prob, fwd.2 ++ outs.2)

/-- A raised Python exception, carried opaquely. -/
abbrev Err := String

/-- Turn a failed partial operation (`none`) into a raised exception. -/
def raiseOnNone {α : Type} (msg : Err) : Option α → Except Err α
  | some a => Except.ok a
  | none => Except.error msg

/-- `loadCategories` with its one fallible call, `open('synset.txt', 'r')`
followed by iteration, passed in as `openR`: the body only maps `rstrip`
over the lines. -/
def loadCategoriesE (openR : Except Err (List Char)) :
    Except Err (List (List Char)) := do
  let contents ← openR
  pure (loadCategories contents)

/-- `loadModel` with its fallible call `mx.model.load_checkpoint` passed in
as `lcR`: the rest of the body is the pure module construction. -/
def loadModelE (lcR : Except Err (Sym × Dict × Dict))
    (exec : Sym → Dict → Dict → List NDArray → List NDArray)
    (gpu : Bool) : Except Err Module := do
  let ckpt ← lcR
  pure (loadModelCore ckpt exec gpu)

/-- `prepareNDArray` with its fallible library calls passed in:
`cv2.imread` (as its result `imreadR`), `cv2.cvtColor` and `cv2.resize`;
the axis manipulation and `mx.nd.array` are the pure tail. -/
def prepareNDArrayE (imreadR : Except Err Image)
    (cvtC : Image → Except Err Image)
    (resizeC : Image → Except Err Image) : Except Err NDArray := do
  let img0 ← imreadR
  let img1 ← cvtC img0
  let img2 ← resizeC img1
  pure (ndarrayOfT4 [swapaxes12 (swapaxes02 img2)])

/-- `predict` with its fallible calls passed in: the preparation of the
input array (`prepR`, itself a `prepareNDArrayE` result), `model.forward`
(`forwardC`, where GPU or framework failures surface), the indexing
`get_outputs()[0]`, and the indexing inside the top-n loop. -/
def predictE (prepR : Except Err NDArray)
    (forwardC : Batch → Except Err (List NDArray))
    (cats : List (List Char)) (n : Nat) :
    Except Err (List (Rat × List Char)) := do
  let array ← prepR
  let outs ← forwardC ⟨[array]⟩
  let out0 ← raiseOnNone "IndexError" (pyIndex outs 0)
  let prob := (squeeze out0).data
  raiseOnNone "IndexError" (predictTopN prob cats n)

/-! ### Lemmas about lines and stripping -/

theorem rstrip_nil : rstrip [] = [] := rfl

theorem head?_dropWhile_not {p : Char → Bool} :
    ∀ {l : List Char} {c : Char}, (l.dropWhile p).head? = some c → p c = false
  | [], _, h => by simp [List.dropWhile] at h
  | a :: l, c, h => by
    by_cases hp : p a
    · rw [List.dropWhile_cons_of_pos hp] at h
      exact head?_dropWhile_not h
    · rw [List.dropWhile_cons_of_neg hp] at h
      simp only [List.head?_cons, Option.some.injEq] at h
      subst h
      exact Bool.of_not_eq_true hp

theorem rstrip_getLast? {l : List Char} {c : Char}
    (h : (rstrip l).getLast? = some c) : isPySpace c = false := by
  rw [rstrip, List.getLast?_reverse] at h
  exact head?_dropWhile_not h

theorem loadCategories_getD (contents : List Char) (i : Nat) :
    (loadCategories contents).getD i [] =
      rstrip ((pythonLines contents).getD i []) := by
  rw [loadCategories]
  rcases h : (pythonLines contents)[i]? with _ | l
  · simp [List.getD_eq_getElem?_getD, h, rstrip_nil]
  · simp [List.getD_eq_getElem?_getD, h]

theorem pythonLines_append_newline {l : List Char} (s : List Char)
    (hl : ('\n' : Char) ∉ l) :
    pythonLines (l ++ '\n' :: s) = (l ++ ['\n']) :: pythonLines s := by
  induction l with
  | nil => simp [pythonLines]
  | cons c l ih =>
    have hc : c ≠ '\n' := fun hc => hl (hc ▸ List.mem_cons_self c l)
    have hl' : ('\n' : Char) ∉ l := fun h => hl (List.mem_cons_of_mem c h)
    rw [List.cons_append, pythonLines, if_neg hc, ih hl']
    rfl

theorem pythonLines_mkSynsetFile (labels : List (List Char))
    (hnl : ∀ l ∈ labels, ('\n' : Char) ∉ l) :
    pythonLines (mkSynsetFile labels) = labels.map (fun l => l ++ ['\n']) := by
  induction labels with
  | nil => rfl
  | cons l labels ih =>
    have h1 : ('\n' : Char) ∉ l := hnl l (List.mem_cons_self l labels)
    have h2 : ∀ x ∈ labels, ('\n' : Char) ∉ x :=
      fun x hx => hnl x (List.mem_cons_of_mem l hx)
    rw [mkSynsetFile, List.map_cons, List.flatten_cons, List.append_assoc,
      List.singleton_append, pythonLines_append_newline _ h1, ← mkSynsetFile,
      ih h2]

/-! ### Claim theorems: loadCategories -/

/-- Claim C3: `loadCategories` loads the newline-delimited label file into an
ordered list: the returned list has one element per line of the file, and
the element at each position is obtained from the line at the same position
(so the order of the file's lines is preserved). -/
theorem loadCategories_one_per_line (contents : List Char) :
    (loadCategories contents).length = (pythonLines contents).length ∧
    ∀ i : Nat, (loadCategories contents).getD i [] =
      rstrip ((pythonLines contents).getD i []) :=
  ⟨List.length_map _ _, loadCategories_getD contents⟩

/-- Claim C10: every label returned by `loadCategories` is the corresponding
line of the file with all trailing whitespace (including the terminating
newline) removed, and consequently no returned label ends in a whitespace
character. -/
theorem loadCategories_rstrip_lines (contents : List Char) :
    (∀ i : Nat, (loadCategories contents).getD i [] =
      rstrip ((pythonLines contents).getD i [])) ∧
    ∀ lbl ∈ loadCategories contents, ∀ c : Char,
      lbl.getLast? = some c → isPySpace c = false := by
  refine ⟨loadCategories_getD contents, ?_⟩
  intro lbl hlbl c hc
  rw [loadCategories, List.mem_map] at hlbl
  obtain ⟨line, _, rfl⟩ := hlbl
  exact rstrip_getLast? hc

/-- Witness for C10 on the file contents `"ab \ncd"`: the first returned
label is `"ab"`, a member of the returned list, and its last character `'b'`
is not whitespace. -/
theorem loadCategories_rstrip_lines_witness :
    ['a', 'b'] ∈ loadCategories ['a', 'b', ' ', '\n', 'c', 'd'] ∧
    isPySpace 'b' = false :=
  ⟨by decide,
    (loadCategories_rstrip_lines ['a', 'b', ' ', '\n', 'c', 'd']).2
      ['a', 'b'] (by decide) 'b' (by decide)⟩

/-- Claim C4: the category list loaded from the synset file has exactly
1,000 entries.  The synset file itself is downloaded at runtime; it is
modelled from the spec as any file storing 1,000 labels one per line. -/
theorem loadCategories_count_1000 (labels : List (List Char))
    (hlen : labels.length = 1000)
    (hnl : ∀ l ∈ labels, ('\n' : Char) ∉ l) :
    (loadCategories (mkSynsetFile labels)).length = 1000 := by
  rw [loadCategories, List.length_map, pythonLines_mkSynsetFile labels hnl,
    List.length_map, hlen]

/-- Witness for C4 at a concrete 1,000-label file. -/
theorem loadCategories_count_1000_witness :
    (List.replicate 1000 ['x']).length = 1000 ∧
    (loadCategories (mkSynsetFile (List.replicate 1000 ['x']))).length
      = 1000 :=
  ⟨List.length_replicate 1000 ['x'],
    loadCategories_count_1000 (List.replicate 1000 ['x'])
      (List.length_replicate 1000 ['x'])
      (fun l hl => by
        rw [List.eq_of_mem_replicate hl]
        decide)⟩

/-! ### Lemmas about the parameter dictionary -/

theorem dictLookup_cons (a : String) (b : NDArray) (d : Dict) (k : String) :
    dictLookup ((a, b) :: d) k = if a = k then some b else dictLookup d k :=
  rfl

theorem dictLookup_map_overwrite (k k' : String) (v : NDArray)
    (h : k ≠ k') :
    ∀ d : Dict,
      dictLookup (d.map (fun p => if p.1 = k' then (k', v) else p)) k =
        dictLookup d k
  | [] => rfl
  | (k0, v0) :: d => by
    show dictLookup ((if k0 = k' then (k', v) else (k0, v0)) ::
        d.map (fun p => if p.1 = k' then (k', v) else p)) k =
      dictLookup ((k0, v0) :: d) k
    by_cases h0 : k0 = k'
    · rw [if_pos h0, dictLookup_cons, dictLookup_cons,
        if_neg (show ¬ k' = k from Ne.symm h),
        if_neg (show ¬ k0 = k from fun hk => h (hk ▸ h0))]
      exact dictLookup_map_overwrite k k' v h d
    · rw [if_neg h0, dictLookup_cons, dictLookup_cons]
      by_cases hk0 : k0 = k
      · rw [if_pos hk0, if_pos hk0]
      · rw [if_neg hk0, if_neg hk0]
        exact dictLookup_map_overwrite k k' v h d

theorem dictLookup_append_single (k k' : String) (v : NDArray)
    (h : k ≠ k') :
    ∀ d : Dict, dictLookup (d ++ [(k', v)]) k = dictLookup d k
  | [] => by
    simp only [List.nil_append, dictLookup, if_neg (Ne.symm h)]
  | (k0, v0) :: d => by
    simp only [List.cons_append, dictLookup]
    by_cases hk0 : k0 = k
    · rw [if_pos hk0, if_pos hk0]
    · rw [if_neg hk0, if_neg hk0]
      exact dictLookup_append_single k k' v h d

theorem dictLookup_dictInsert_ne (d : Dict) (k' k : String) (v : NDArray)
    (h : k ≠ k') : dictLookup (dictInsert d k' v) k = dictLookup d k := by
  rw [dictInsert]
  by_cases hany : (d.any (fun p => p.1 = k')) = true
  · rw [if_pos hany]
    exact dictLookup_map_overwrite k k' v h d
  · rw [if_neg hany]
    exact dictLookup_append_single k k' v h d

/-! ### Claim theorems: loadModel -/

/-- Counterexample to claim C5: on a checkpoint whose weight set is the
single entry `fc8_weight`, `loadModel` does not leave the weight set
unchanged — it inserts `prob_label` and `softmax_label`. -/
theorem loadModel_argParams_changed :
    (loadModel (fun _ => ("sym", [("fc8_weight", ndarrayOf1 1)], []))
        (fun _ _ _ _ => []) "vgg16" false).argParams ≠
      [("fc8_weight", ndarrayOf1 1)] := by
  decide

/-- Claim C5 as amended: `loadModel` mutates the weight set loaded by
`load_checkpoint` exactly by assigning the two entries `prob_label` and
`softmax_label` (each a one-element zero array); the binding of every other
key is unchanged, and the auxiliary weight set is not modified at all. -/
theorem loadModel_argParams_insert_only
    (lc : String → Sym × Dict × Dict)
    (exec : Sym → Dict → Dict → List NDArray → List NDArray)
    (name : String) (gpu : Bool) :
    (loadModel lc exec name gpu).argParams =
      dictInsert (dictInsert (lc name).2.1 "prob_label" (ndarrayOf1 0))
        "softmax_label" (ndarrayOf1 0) ∧
    (loadModel lc exec name gpu).auxParams = (lc name).2.2 ∧
    ∀ k : String, k ≠ "prob_label" → k ≠ "softmax_label" →
      dictLookup (loadModel lc exec name gpu).argParams k =
        dictLookup (lc name).2.1 k := by
  refine ⟨?_, ?_, ?_⟩
  · cases gpu <;> rfl
  · cases gpu <;> rfl
  · intro k h1 h2
    have hp : (loadModel lc exec name gpu).argParams =
        dictInsert (dictInsert (lc name).2.1 "prob_label" (ndarrayOf1 0))
          "softmax_label" (ndarrayOf1 0) := by
      cases gpu <;> rfl
    rw [hp, dictLookup_dictInsert_ne _ _ _ _ h2,
      dictLookup_dictInsert_ne _ _ _ _ h1]

/-- Witness for the amended C5 at a concrete checkpoint: the untouched key
`fc8_weight` still has its original value after `loadModel`. -/
theorem loadModel_argParams_insert_only_witness :
    dictLookup (loadModel (fun _ => ("sym", [("fc8_weight", ndarrayOf1 1)],
        [])) (fun _ _ _ _ => []) "vgg16" false).argParams "fc8_weight" =
      dictLookup [("fc8_weight", ndarrayOf1 1)] "fc8_weight" :=
  (loadModel_argParams_insert_only
    (fun _ => ("sym", [("fc8_weight", ndarrayOf1 1)], []))
    (fun _ _ _ _ => []) "vgg16" false).2.2 "fc8_weight"
    (by decide) (by decide)

/-- Claim C8: loading is parameterized by the model name and the single
optional GPU flag; for every model name the two flag settings perform the
same loading steps on the same checkpoint and differ only in the compute
context — GPU device 0 when set, the framework's default CPU context
otherwise. -/
theorem loadModel_gpu_flag_only_context
    (lc : String → Sym × Dict × Dict)
    (exec : Sym → Dict → Dict → List NDArray → List NDArray)
    (name : String) :
    (loadModel lc exec name true).context = Context.gpu 0 ∧
    (loadModel lc exec name false).context = Context.cpu ∧
    (loadModel lc exec name true).symbol =
      (loadModel lc exec name false).symbol ∧
    (loadModel lc exec name true).forTraining =
      (loadModel lc exec name false).forTraining ∧
    (loadModel lc exec name true).dataShapes =
      (loadModel lc exec name false).dataShapes ∧
    (loadModel lc exec name true).argParams =
      (loadModel lc exec name false).argParams ∧
    (loadModel lc exec name true).auxParams =
      (loadModel lc exec name false).auxParams ∧
    (loadModel lc exec name true).net =
      (loadModel lc exec name false).net ∧
    (loadModel lc exec name true).lastOutputs =
      (loadModel lc exec name false).lastOutputs :=
  ⟨rfl, rfl, rfl, rfl, rfl, rfl, rfl, rfl, rfl⟩

/-! ### Lemmas about the top-n selection -/

theorem argsortDesc_perm (prob : List Rat) :
    (argsortDesc prob).Perm (List.range prob.length) :=
  (List.reverse_perm (argsort prob)).trans
    (List.perm_insertionSort (probLe prob) (List.range prob.length))

theorem argsortDesc_sorted (prob : List Rat) :
    (argsortDesc prob).Pairwise (fun i j => probLe prob j i) :=
  List.pairwise_reverse.mpr
    (List.sorted_insertionSort (probLe prob) (List.range prob.length))

theorem mem_argsortDesc_lt (prob : List Rat) {i : Nat}
    (h : i ∈ argsortDesc prob) : i < prob.length :=
  List.mem_range.mp ((argsortDesc_perm prob).mem_iff.mp h)

theorem topnLoop_some (prob : List Rat) (cats : List (List Char)) :
    ∀ l : List Nat, (∀ i ∈ l, i < prob.length ∧ i < cats.length) →
      topnLoop prob cats l =
        some (l.map fun i => (prob.getD i 0, cats.getD i []))
  | [], _ => rfl
  | i :: l, h => by
    obtain ⟨hp, hc⟩ := h i (List.mem_cons_self i l)
    have hrec := topnLoop_some prob cats l
      (fun j hj => h j (List.mem_cons_of_mem i hj))
    simp [topnLoop, pyIndex, List.getElem?_eq_getElem hp,
      List.getElem?_eq_getElem hc, hrec, List.getD_eq_getElem?_getD]

theorem predictTopN_eq (prob : List Rat) (cats : List (List Char)) (n : Nat)
    (h : prob.length ≤ cats.length) :
    predictTopN prob cats n =
      some (((argsortDesc prob).take n).map fun i =>
        (prob.getD i 0, cats.getD i [])) :=
  topnLoop_some prob cats ((argsortDesc prob).take n) (fun i hi => by
    have hmem : i ∈ argsortDesc prob := List.mem_of_mem_take hi
    have hlt := mem_argsortDesc_lt prob hmem
    exact ⟨hlt, lt_of_lt_of_le hlt h⟩)

/-! ### Claim theorems: predict -/

/-- Claim C1: for every probability vector and requested count `n`, the
top-n selection of `predict` pairs probabilities with the category labels
stored at the same indices, along an index list that is a permutation of
all indices sorted by descending probability value; the returned pairs are
therefore the first `n` of that descending arrangement. -/
theorem predict_topn_desc_pairs (prob : List Rat) (cats : List (List Char))
    (n : Nat) (h : prob.length ≤ cats.length) :
    ∃ idx : List Nat,
      idx.Perm (List.range prob.length) ∧
      (idx.map (fun i => prob.getD i 0)).Sorted (· ≥ ·) ∧
      predictTopN prob cats n =
        some ((idx.take n).map fun i => (prob.getD i 0, cats.getD i [])) :=
  ⟨argsortDesc prob, argsortDesc_perm prob,
    (argsortDesc_sorted prob).map _ (fun _ _ hab => hab),
    predictTopN_eq prob cats n h⟩

/-- Witness for C1 on the vector `[1, 3, 2]` with three labels and `n = 2`. -/
theorem predict_topn_desc_pairs_witness :
    ([(1 : Rat), 3, 2].length ≤
      ([['a'], ['b'], ['c']] : List (List Char)).length) ∧
    ∃ idx : List Nat,
      idx.Perm (List.range [(1 : Rat), 3, 2].length) ∧
      (idx.map (fun i => [(1 : Rat), 3, 2].getD i 0)).Sorted (· ≥ ·) ∧
      predictTopN [(1 : Rat), 3, 2] [['a'], ['b'], ['c']] 2 =
        some ((idx.take 2).map fun i =>
          ([(1 : Rat), 3, 2].getD i 0, [['a'], ['b'], ['c']].getD i [])) :=
  ⟨by decide,
    predict_topn_desc_pairs [(1 : Rat), 3, 2] [['a'], ['b'], ['c']] 2
      (by decide)⟩

/-- Claim C9: for every count `n` and probability vector, provided the
category list is at least as long as the probability vector, the top-n
selection never raises an index error and returns exactly
`min n (length prob)` pairs; requesting more than exist returns all of
them. -/
theorem predict_topn_length (prob : List Rat) (cats : List (List Char))
    (n : Nat) (h : prob.length ≤ cats.length) :
    ∃ l, predictTopN prob cats n = some l ∧ l.length = min n prob.length := by
  refine ⟨_, predictTopN_eq prob cats n h, ?_⟩
  rw [List.length_map, List.length_take, (argsortDesc_perm prob).length_eq,
    List.length_range]

/-- Witness for C9: two probabilities, three labels, `n = 5` larger than the
vector; the selection succeeds with `min 5 2 = 2` pairs. -/
theorem predict_topn_length_witness :
    ([(1 : Rat), 2].length ≤ ([['a'], ['b'], ['c']] : List (List Char)).length)
    ∧ ∃ l, predictTopN [(1 : Rat), 2] [['a'], ['b'], ['c']] 5 = some l ∧
      l.length = min 5 [(1 : Rat), 2].length :=
  ⟨by decide,
    predict_topn_length [(1 : Rat), 2] [['a'], ['b'], ['c']] 5 (by decide)⟩

/-- Claim C6: every run of `predict` performs exactly one forward pass, and
the probability vector it extracts is the first element of the model's
outputs with all unit axes squeezed away; when that output has shape
`(1, k)` with `k ≠ 1` the squeezed array is one-dimensional of extent `k`. -/
theorem predict_one_forward_squeeze (m : Module) (array : NDArray)
    (cats : List (List Char)) (n : Nat) :
    ((predictRun m array cats n).2.2.countP Event.isForward) = 1 ∧
    (predictRun m array cats n).2.1 =
      (squeeze ((m.net [array]).getD 0 ⟨[], []⟩)).data ∧
    ∀ k : Nat, ((m.net [array]).getD 0 ⟨[], []⟩).shape = [1, k] → k ≠ 1 →
      (squeeze ((m.net [array]).getD 0 ⟨[], []⟩)).shape = [k] := by
  refine ⟨rfl, rfl, ?_⟩
  intro k hshape hk
  show ((m.net [array]).getD 0 ⟨[], []⟩).shape.filter (fun d => d ≠ 1) = [k]
  rw [hshape]
  simp [List.filter_cons, hk]

/-- A sample module whose network returns one output of shape `(1, 2)`,
used only to witness the `predict` claims on a concrete model. -/
def sampleModule : Module :=
  { symbol := "s"
    context := Context.cpu
    forTraining := false
    dataShapes := []
    argParams := []
    auxParams := []
    net := fun _ => [{ shape := [1, 2], data := [1, 2] }]
    lastOutputs := [] }

/-- A sample empty input array for the `predict` witnesses. -/
def sampleArray : NDArray := { shape := [], data := [] }

/-- Witness for C6 on a module whose network returns one `(1, 2)` output. -/
theorem predict_one_forward_squeeze_witness :
    ((predictRun sampleModule sampleArray [] 0).2.2.countP
      Event.isForward) = 1 ∧
    (squeeze ((sampleModule.net [sampleArray]).getD 0 ⟨[], []⟩)).shape
      = [2] := by
  have h := predict_one_forward_squeeze sampleModule sampleArray [] 0
  exact ⟨h.1, h.2.2 2 rfl (by decide)⟩

/-! ### Error propagation -/

theorem exceptBind_ok {α β : Type} (a : α) (f : α → Except Err β) :
    (Except.ok a >>= f) = f a := rfl

theorem exceptBind_error {α β : Type} (e : Err) (f : α → Except Err β) :
    ((Except.error e : Except Err α) >>= f) = Except.error e := rfl

/-- Claim C7: none of the four operations contains recovery, retry, or
translation logic.  Each operation, with its fallible underlying calls
abstracted as parameters, returns the error of the first failing call
unchanged, and succeeds with the pure composition of the call results when
every call succeeds. -/
theorem ops_propagate_errors (e : Err) (contents : List Char)
    (ckpt : Sym × Dict × Dict)
    (exec : Sym → Dict → Dict → List NDArray → List NDArray) (gpu : Bool)
    (cvtC resizeC : Image → Except Err Image) (img0 img1 img2 : Image)
    (fwd : Batch → Except Err (List NDArray)) (a : NDArray)
    (outs : List NDArray) (cats : List (List Char)) (n : Nat) :
    (loadCategoriesE (Except.error e) = Except.error e) ∧
    (loadCategoriesE (Except.ok contents) =
      Except.ok (loadCategories contents)) ∧
    (loadModelE (Except.error e) exec gpu = Except.error e) ∧
    (loadModelE (Except.ok ckpt) exec gpu =
      Except.ok (loadModelCore ckpt exec gpu)) ∧
    (prepareNDArrayE (Except.error e) cvtC resizeC = Except.error e) ∧
    (cvtC img0 = Except.error e →
      prepareNDArrayE (Except.ok img0) cvtC resizeC = Except.error e) ∧
    (cvtC img0 = Except.ok img1 → resizeC img1 = Except.error e →
      prepareNDArrayE (Except.ok img0) cvtC resizeC = Except.error e) ∧
    (cvtC img0 = Except.ok img1 → resizeC img1 = Except.ok img2 →
      prepareNDArrayE (Except.ok img0) cvtC resizeC =
        Except.ok (ndarrayOfT4 [swapaxes12 (swapaxes02 img2)])) ∧
    (predictE (Except.error e) fwd cats n = Except.error e) ∧
    (fwd ⟨[a]⟩ = Except.error e →
      predictE (Except.ok a) fwd cats n = Except.error e) ∧
    (fwd ⟨[a]⟩ = Except.ok outs →
      predictE (Except.ok a) fwd cats n =
        (raiseOnNone "IndexError" (pyIndex outs 0) >>= fun out0 =>
          raiseOnNone "IndexError"
            (predictTopN (squeeze out0).data cats n))) := by
  refine ⟨rfl, rfl, rfl, rfl, rfl, ?_, ?_, ?_, rfl, ?_, ?_⟩
  · intro h6
    show (cvtC img0 >>= fun i1 => resizeC i1 >>= fun i2 =>
      pure (ndarrayOfT4 [swapaxes12 (swapaxes02 i2)])) = Except.error e
    rw [h6, exceptBind_error]
  · intro h6 h7
    show (cvtC img0 >>= fun i1 => resizeC i1 >>= fun i2 =>
      pure (ndarrayOfT4 [swapaxes12 (swapaxes02 i2)])) = Except.error e
    rw [h6, exceptBind_ok, h7, exceptBind_error]
  · intro h6 h7
    show (cvtC img0 >>= fun i1 => resizeC i1 >>= fun i2 =>
      pure (ndarrayOfT4 [swapaxes12 (swapaxes02 i2)])) =
      Except.ok (ndarrayOfT4 [swapaxes12 (swapaxes02 img2)])
    rw [h6, exceptBind_ok, h7, exceptBind_ok]
    rfl
  · intro h10
    show (fwd ⟨[a]⟩ >>= fun outs =>
      raiseOnNone "IndexError" (pyIndex outs 0) >>= fun out0 =>
        raiseOnNone "IndexError"
          (predictTopN (squeeze out0).data cats n)) = Except.error e
    rw [h10, exceptBind_error]
  · intro h11
    show (fwd ⟨[a]⟩ >>= fun outs =>
      raiseOnNone "IndexError" (pyIndex outs 0) >>= fun out0 =>
        raiseOnNone "IndexError"
          (predictTopN (squeeze out0).data cats n)) = _
    rw [h11, exceptBind_ok]

/-- Witness for C7: concrete failing and succeeding underlying calls, each
propagated (or composed) exactly as the theorem states. -/
theorem ops_propagate_errors_witness :
    (prepareNDArrayE (Except.ok ([] : Image)) (fun _ => Except.error "E")
      (fun _ => Except.ok []) = Except.error "E") ∧
    (prepareNDArrayE (Except.ok ([] : Image)) (fun _ => Except.ok [])
      (fun _ => Except.error "E") = Except.error "E") ∧
    (prepareNDArrayE (Except.ok ([] : Image)) (fun _ => Except.ok [])
      (fun _ => Except.ok []) =
      Except.ok (ndarrayOfT4 [swapaxes12 (swapaxes02 [])])) ∧
    (predictE (Except.ok sampleArray) (fun _ => Except.error "E") [] 0 =
      Except.error "E") ∧
    (predictE (Except.ok sampleArray) (fun _ => Except.ok []) [] 0 =
      Except.error "IndexError") := by
  refine ⟨?_, ?_, ?_, ?_, ?_⟩
  · exact (ops_propagate_errors "E" [] ("s", [], [])
      (fun _ _ _ _ => []) false (fun _ => Except.error "E")
      (fun _ => Except.ok []) [] [] [] (fun _ => Except.error "E")
      sampleArray [] [] 0).2.2.2.2.2.1 rfl
  · exact (ops_propagate_errors "E" [] ("s", [], [])
      (fun _ _ _ _ => []) false (fun _ => Except.ok [])
      (fun _ => Except.error "E") [] [] [] (fun _ => Except.error "E")
      sampleArray [] [] 0).2.2.2.2.2.2.1 rfl rfl
  · exact (ops_propagate_errors "E" [] ("s", [], [])
      (fun _ _ _ _ => []) false (fun _ => Except.ok [])
      (fun _ => Except.ok []) [] [] [] (fun _ => Except.error "E")
      sampleArray [] [] 0).2.2.2.2.2.2.2.1 rfl rfl
  · exact (ops_propagate_errors "E" [] ("s", [], [])
      (fun _ _ _ _ => []) false (fun _ => Except.ok [])
      (fun _ => Except.ok []) [] [] [] (fun _ => Except.error "E")
      sampleArray [] [] 0).2.2.2.2.2.2.2.2.2.1 rfl
  · exact ((ops_propagate_errors "E" [] ("s", [], [])
      (fun _ _ _ _ => []) false (fun _ => Except.ok [])
      (fun _ => Except.ok []) [] [] [] (fun _ => Except.ok [])
      sampleArray [] [] 0).2.2.2.2.2.2.2.2.2.2 rfl).trans rfl

/-! ### Lemmas about the image pipeline -/

theorem getD_range_map {α : Type} (f : Nat → α) (d : α) {i n : Nat}
    (h : i < n) : ((List.range n).map f).getD i d = f i := by
  have hlen : i < ((List.range n).map f).length := by
    rw [List.length_map, List.length_range]
    exact h
  rw [List.getD_eq_getElem?_getD, List.getElem?_eq_getElem hlen]
  simp

theorem getD_map_lt {α β : Type} (f : α → β) (l : List α) (db : β) (da : α)
    {i : Nat} (h : i < l.length) : (l.map f).getD i db = f (l.getD i da) := by
  have hlen : i < (l.map f).length := by
    rw [List.length_map]
    exact h
  rw [List.getD_eq_getElem?_getD, List.getElem?_eq_getElem hlen,
    List.getD_eq_getElem?_getD, List.getElem?_eq_getElem h]
  simp

theorem getD_mem_of_lt {α : Type} (l : List α) (d : α) {i : Nat}
    (h : i < l.length) : l.getD i d ∈ l := by
  rw [List.getD_eq_getElem?_getD, List.getElem?_eq_getElem h]
  exact List.getElem_mem h

theorem idx3_swapaxes02 (a : Image) {i j k : Nat} (hi : i < dim2 a)
    (hj : j < dim1 a) (hk : k < dim0 a) :
    idx3 (swapaxes02 a) i j k = idx3 a k j i := by
  rw [idx3, swapaxes02, getD_range_map _ _ hi, getD_range_map _ _ hj,
    getD_range_map _ _ hk]

theorem idx3_swapaxes12 (a : Image) {i j k : Nat} (hi : i < dim0 a)
    (hj : j < dim2 a) (hk : k < dim1 a) :
    idx3 (swapaxes12 a) i j k = idx3 a i k j := by
  rw [idx3, swapaxes12, getD_range_map _ _ hi, getD_range_map _ _ hj,
    getD_range_map _ _ hk]

theorem dim0_swapaxes02 (a : Image) : dim0 (swapaxes02 a) = dim2 a := by
  rw [dim0, swapaxes02, List.length_map, List.length_range]

theorem dim1_swapaxes02 (a : Image) (h : 0 < dim2 a) :
    dim1 (swapaxes02 a) = dim1 a := by
  rw [dim1, swapaxes02, getD_range_map _ _ h, List.length_map,
    List.length_range]

theorem dim2_swapaxes02 (a : Image) (h2 : 0 < dim2 a) (h1 : 0 < dim1 a) :
    dim2 (swapaxes02 a) = dim0 a := by
  rw [dim2, swapaxes02, getD_range_map _ _ h2, getD_range_map _ _ h1,
    List.length_map, List.length_range]

theorem dim0_swapaxes12 (a : Image) : dim0 (swapaxes12 a) = dim0 a := by
  rw [dim0, swapaxes12, List.length_map, List.length_range]

theorem dim1_swapaxes12 (a : Image) (h : 0 < dim0 a) :
    dim1 (swapaxes12 a) = dim2 a := by
  rw [dim1, swapaxes12, getD_range_map _ _ h, List.length_map,
    List.length_range]

theorem dim2_swapaxes12 (a : Image) (h0 : 0 < dim0 a) (h2 : 0 < dim2 a) :
    dim2 (swapaxes12 a) = dim1 a := by
  rw [dim2, swapaxes12, getD_range_map _ _ h0, getD_range_map _ _ h2,
    List.length_map, List.length_range]

theorem dim0_resize (img : Image) (w h : Nat) :
    dim0 (resize img w h) = h := by
  rw [dim0, resize, List.length_map, List.length_range]

theorem dim1_resize (img : Image) (w : Nat) {h : Nat} (hh : 0 < h) :
    dim1 (resize img w h) = w := by
  rw [dim1, resize, getD_range_map _ _ hh, List.length_map,
    List.length_range]

theorem pixel00_resize (img : Image) {w h : Nat} (hw : 0 < w)
    (hh : 0 < h) :
    ((resize img w h).getD 0 []).getD 0 [] = (img.getD 0 []).getD 0 [] := by
  rw [resize, getD_range_map _ _ hh, getD_range_map _ _ hw,
    Nat.zero_mul, Nat.zero_div, Nat.zero_mul, Nat.zero_div]

theorem reverse_getD_three (x y z : Nat) {k : Nat} (hk : k < 3) :
    ([x, y, z].reverse).getD k 0 = [x, y, z].getD (2 - k) 0 :=
  match k, hk with
  | 0, _ => rfl
  | 1, _ => rfl
  | 2, _ => rfl

theorem idx3_cvtColor (img : Image)
    (hC : ∀ row ∈ img, ∀ px ∈ row, px.length = 3) {i j k : Nat}
    (hi : i < img.length) (hj : j < (img.getD i []).length) (hk : k < 3) :
    idx3 (cvtColorBGR2RGB img) i j k = idx3 img i j (2 - k) := by
  have hrow : img.getD i [] ∈ img := getD_mem_of_lt img [] hi
  have hpx : (img.getD i []).getD j [] ∈ img.getD i [] :=
    getD_mem_of_lt _ [] hj
  have hlen := hC _ hrow _ hpx
  obtain ⟨x, y, z, hxyz⟩ := List.length_eq_three.mp hlen
  rw [idx3, idx3, cvtColorBGR2RGB, getD_map_lt _ _ [] [] hi,
    getD_map_lt _ _ [] [] hj, hxyz]
  exact reverse_getD_three x y z hk

theorem pixel00_cvtColor (img : Image) (hH : 0 < img.length)
    (hW : 0 < (img.getD 0 []).length) :
    ((cvtColorBGR2RGB img).getD 0 []).getD 0 [] =
      ((img.getD 0 []).getD 0 []).reverse := by
  rw [cvtColorBGR2RGB, getD_map_lt _ _ [] [] hH, getD_map_lt _ _ [] [] hW]

/-! ### Claim theorem: prepareNDArray -/

/-- Claim C2: for every decodable input image (a nonempty BGR image whose
pixels have three channels), `prepareNDArray` converts the colour order
from BGR to RGB, resizes to 224 x 224, rearranges the axes from
(height, width, 3) to (3, height, width), and adds a leading batch axis, so
the returned tensor has shape `(1, 3, 224, 224)` regardless of the input
size: the element at `[0][c][h][w]` is the element at `[h][w][c]` of the
resized RGB image, and the RGB conversion reverses each pixel's channel
order. -/
theorem prepareNDArray_shape (img : Image)
    (hH : 0 < img.length) (hW : 0 < (img.getD 0 []).length)
    (hC : ∀ row ∈ img, ∀ px ∈ row, px.length = 3) :
    (prepareNDArray img).shape = [1, 3, 224, 224] ∧
    (∀ c h w : Nat, c < 3 → h < 224 → w < 224 →
      idx4 (prepareT4 img) 0 c h w =
        idx3 (resize (cvtColorBGR2RGB img) 224 224) h w c) ∧
    (∀ i j k : Nat, i < img.length → j < (img.getD i []).length → k < 3 →
      idx3 (cvtColorBGR2RGB img) i j k = idx3 img i j (2 - k)) := by
  have hpx : ((img.getD 0 []).getD 0 []).length = 3 :=
    hC _ (getD_mem_of_lt img [] hH) _ (getD_mem_of_lt _ [] hW)
  have hd2r : dim2 (resize (cvtColorBGR2RGB img) 224 224) = 3 := by
    rw [dim2, pixel00_resize _ (by norm_num) (by norm_num),
      pixel00_cvtColor img hH hW, List.length_reverse, hpx]
  have hd0r : dim0 (resize (cvtColorBGR2RGB img) 224 224) = 224 :=
    dim0_resize _ _ _
  have hd1r : dim1 (resize (cvtColorBGR2RGB img) 224 224) = 224 :=
    dim1_resize _ _ (by norm_num)
  have p2r : 0 < dim2 (resize (cvtColorBGR2RGB img) 224 224) := by
    rw [hd2r]
    norm_num
  have p1r : 0 < dim1 (resize (cvtColorBGR2RGB img) 224 224) := by
    rw [hd1r]
    norm_num
  have hd0b : dim0 (swapaxes02 (resize (cvtColorBGR2RGB img) 224 224)) = 3 :=
    (dim0_swapaxes02 _).trans hd2r
  have hd1b :
      dim1 (swapaxes02 (resize (cvtColorBGR2RGB img) 224 224)) = 224 :=
    (dim1_swapaxes02 _ p2r).trans hd1r
  have hd2b :
      dim2 (swapaxes02 (resize (cvtColorBGR2RGB img) 224 224)) = 224 :=
    (dim2_swapaxes02 _ p2r p1r).trans hd0r
  have p0b : 0 < dim0 (swapaxes02 (resize (cvtColorBGR2RGB img) 224 224)) :=
    by
      rw [hd0b]
      norm_num
  have p2b : 0 < dim2 (swapaxes02 (resize (cvtColorBGR2RGB img) 224 224)) :=
    by
      rw [hd2b]
      norm_num
  refine ⟨?_, ?_, ?_⟩
  · show [(1 : Nat),
      dim0 (swapaxes12 (swapaxes02 (resize (cvtColorBGR2RGB img) 224 224))),
      dim1 (swapaxes12 (swapaxes02 (resize (cvtColorBGR2RGB img) 224 224))),
      dim2 (swapaxes12 (swapaxes02 (resize (cvtColorBGR2RGB img) 224 224)))]
      = [1, 3, 224, 224]
    rw [dim0_swapaxes12, hd0b, dim1_swapaxes12 _ p0b, hd2b,
      dim2_swapaxes12 _ p0b p2b, hd1b]
  · intro c h w hc hh hw
    have hcb : c < dim0 (swapaxes02 (resize (cvtColorBGR2RGB img) 224 224))
      := by
        rw [hd0b]
        exact hc
    have hhb : h < dim2 (swapaxes02 (resize (cvtColorBGR2RGB img) 224 224))
      := by
        rw [hd2b]
        exact hh
    have hwb : w < dim1 (swapaxes02 (resize (cvtColorBGR2RGB img) 224 224))
      := by
        rw [hd1b]
        exact hw
    have hcr : c < dim2 (resize (cvtColorBGR2RGB img) 224 224) := by
      rw [hd2r]
      exact hc
    have hwr : w < dim1 (resize (cvtColorBGR2RGB img) 224 224) := by
      rw [hd1r]
      exact hw
    have hhr : h < dim0 (resize (cvtColorBGR2RGB img) 224 224) := by
      rw [hd0r]
      exact hh
    show idx3 (swapaxes12 (swapaxes02 (resize (cvtColorBGR2RGB img) 224 224)))
      c h w = idx3 (resize (cvtColorBGR2RGB img) 224 224) h w c
    rw [idx3_swapaxes12 _ hcb hhb hwb, idx3_swapaxes02 _ hcr hwr hhr]
  · intro i j k hi hj hk
    exact idx3_cvtColor img hC hi hj hk

/-- Witness for C2 on a concrete 1 x 1 BGR image: its prepared tensor has
shape `(1, 3, 224, 224)`. -/
theorem prepareNDArray_shape_witness :
    (prepareNDArray [[[5, 6, 7]]]).shape = [1, 3, 224, 224] :=
  (prepareNDArray_shape [[[5, 6, 7]]] (by decide) (by decide)
    (by decide)).1

end AwsNotebook
